import Mathlib

/-!
Shallow embedding of the video-editor service worker
(`video-processing-api/lambda/main.py`) and verification of its
specification claims.

Modelling conventions:
- Python floats carrying progress percentages are modelled as rationals (ℚ);
  Python's `round(x, 1)` (round-half-to-even at one decimal) is modelled
  exactly by `pyRound1`.
- The dynamic request dict is modelled by the `Payload` structure: each field
  access path used by the code (`data.get("input", {}).get("url")`, …) becomes
  one optional field; Python string truthiness (`not s` for `None` or `""`)
  is `truthy`.
- Side-effecting collaborators (object store, queue, external tool, network)
  are oracles: each fallible call in a handler's `try` block is one indexed
  step, and a run outcome fixes the index of the first call that raises (if
  any).  Successful calls emit `Event`s; the list of events of a run is its
  observable side-effect trace.
- The external tool's argv strings are opaque to every claim, so an
  invocation is one `Step.run` step; the audio-stream probe, whose result
  structure a claim does depend on, is embedded separately (`inputHasAudio`).
-/

namespace VideoSvc

/-! ### Progress clamping and rounding (`_save_job_status`, lines 162-169) -/

/-- Python `max(0.0, min(100.0, p))`. -/
def clamp (p : ℚ) : ℚ := max 0 (min 100 p)

/-- Round half to even, the rounding mode of Python's builtin `round`. -/
def rhe (z : ℚ) : ℤ :=
  if z - (⌊z⌋ : ℚ) < 1/2 then ⌊z⌋
  else if z - (⌊z⌋ : ℚ) > 1/2 then ⌊z⌋ + 1
  else if ⌊z⌋ % 2 = 0 then ⌊z⌋ else ⌊z⌋ + 1

/-- Python `round(x, 1)`. -/
def pyRound1 (x : ℚ) : ℚ := (rhe (10 * x) : ℚ) / 10

/-- The progress value actually recorded by `_save_job_status` for a raw
progress argument `p`: clamp to [0, 100], then round to one decimal. -/
def recProg (p : ℚ) : ℚ := pyRound1 (clamp p)

/-! ### Request payload and environment -/

/-- Python string truthiness for an optional string: `None` and `""` are
falsy, everything else truthy (used by `if not input_url or ...`). -/
def truthy : Option String → Bool
  | none => false
  | some s => !(s == "")

/-- Python `a or b` on optional strings (first truthy value wins). -/
def orStr (a b : Option String) : Option String :=
  if truthy a then a else b

/-- The request dict, with one field per access path the code performs.
`video_urls` is `data.get("video_urls", [])`; `input_url` is
`data.get("input", \x7b\x7d).get("url")`; `caption_text` is
`data.get("caption", \x7b\x7d).get("text")`; and so on. -/
structure Payload where
  job_id : Option String := none
  opField : Option String := none
  video_urls : List String := []
  input_url : Option String := none
  caption_text : Option String := none
  audio_url : Option String := none
  watermark_url : Option String := none
  overlay_url : Option String := none
  input_bucket : Option String := none
  input_key : Option String := none
  output_bucket : Option String := none
  output_key : Option String := none
deriving Repr, DecidableEq

/-- Process environment and nondeterministic inputs that are fixed for one
invocation: tool discovery results, env-var buckets, queue configuration,
the id the `uuid` call would generate, and the presigned URL the storage
client would issue. -/
structure Env where
  ffmpeg : Option String := none
  ffprobe : Option String := none
  inputBucketEnv : Option String := none
  outputBucketEnv : Option String := none
  queueUrl : String := ""
  sqsClient : Bool := true
  genId : String := "genid000"
  presigned : String := "https://presigned"
deriving Repr, DecidableEq

/-- `data.get("job_id") or str(uuid.uuid4())[:8]`. -/
def resolveJobId (d : Payload) (env : Env) : String :=
  match orStr d.job_id (some env.genId) with
  | some s => s
  | none => env.genId

/-! ### Side-effect steps, events and run outcomes

Each fallible call inside a handler's `try` block is one `Step`, in program
order.  An oracle (`RunOracle.failAt`) names the first step whose underlying
call raises, if any; steps before it succeed and emit their events, the
failing step and everything after it emit nothing.  `Step.silent` covers
fallible calls with no externally observable effect (mkdir, local concat-file
writes).  A successful status write emits the status value and the recorded
(clamped, rounded) progress. -/

inductive Step where
  | save (jobId status : String) (progress : Option ℚ)
  | download (url : String)
  | run
  | upload (bucket : Option String) (key : String)
  | presign
  | silent
deriving Repr, DecidableEq

inductive Event where
  | save (jobId status : String) (progress : Option ℚ)
  | download (url : String)
  | run
  | upload (bucket : Option String) (key : String)
  | copy
  | enqueue (jobId : String)
deriving Repr, DecidableEq

/-- The event a successfully executed step emits, if any. -/
def Step.event : Step → Option Event
  | .save j s p => some (.save j s (p.map recProg))
  | .download u => some (.download u)
  | .run => some .run
  | .upload b k => some (.upload b k)
  | .presign => none
  | .silent => none

/-- Oracle for one handler run: `failAt = some k` means the `k`-th fallible
step of the `try` block raises with message `failMsg`; `persistFail = some m`
means the `_save_job_status(..., "failed", ...)` call in the `except` block
itself raises with message `m`. -/
structure RunOracle where
  failAt : Option Nat := none
  failMsg : String := "boom"
  persistFail : Option String := none
deriving Repr, DecidableEq

/-- Execute a step list under the oracle: returns the emitted events and
whether the whole list ran without an exception. -/
def runSteps (steps : List Step) (failAt : Option Nat) : List Event × Bool :=
  match failAt with
  | none => (steps.filterMap Step.event, true)
  | some k =>
      if k < steps.length then ((steps.take k).filterMap Step.event, false)
      else (steps.filterMap Step.event, true)

/-- Results a handler (or the lambda entry point) can produce.  `raised`
models an uncaught Python exception leaving the function. -/
inductive Body where
  | err (msg : String)
  | success (jobId url : String)
  | mergeSuccess (jobId : String) (count : Nat) (url : String)
  | remuxBody (op : String) (error : Option String)
  | queuedBody (jobId : String)
  | okBody
  | handlerError (msg : String)
deriving Repr, DecidableEq

inductive Res where
  | http (code : Nat) (body : Body)
  | worker (body : Body)
  | raised (msg : String)
deriving Repr, DecidableEq

/-- Statuses recorded by the status writes of a trace, in order. -/
def statusValues (tr : List Event) : List String :=
  tr.filterMap fun e =>
    match e with
    | .save _ s _ => some s
    | _ => none

/-- Progress values recorded by the status writes of a trace that carry a
progress, in order. -/
def progressValues (tr : List Event) : List ℚ :=
  tr.filterMap fun e =>
    match e with
    | .save _ _ p => p
    | _ => none

/-! ### Shared success/except trailer of the caption-family handlers

Caption, add-audio, watermark and overlay share (verbatim in the source) the
same `try ... except` shape: on success return the result dict (raw in worker
mode, wrapped as a 200 response otherwise); on a stage exception write a
`failed` status with progress 100 — with no inner try, so if that write
raises, the persistence exception replaces the stage exception — then
re-raise in worker mode or return a 500 response. -/
def finishSimple (jobId : String) (steps : List Step) (oc : RunOracle)
    (workerMode : Bool) (successBody : Body) (errPrefix : String) :
    Res × List Event :=
  let tr := (runSteps steps oc.failAt).1
  let ok := (runSteps steps oc.failAt).2
  if ok then
    if workerMode then (.worker successBody, tr)
    else (.http 200 successBody, tr)
  else
    match oc.persistFail with
    | some m => (.raised m, tr)
    | none =>
        let tr2 := tr ++ [Event.save jobId "failed" (some (recProg 100))]
        if workerMode then (.raised oc.failMsg, tr2)
        else (.http 500 (.err (errPrefix ++ oc.failMsg)), tr2)

/-! ### Caption handler (`_handle_caption_operation`, lines 191-369) -/

def captionSteps (j url : String) (env : Env) : List Step :=
  [.save j "processing" (some 10), .silent, .download url,
   .save j "processing" (some 30), .run, .save j "uploading" (some 80),
   .upload env.outputBucketEnv ("caption/" ++ j ++ "/output.mp4"), .presign,
   .save j "completed" (some 100)]

def handleCaption (d : Payload) (env : Env) (oc : RunOracle)
    (workerMode : Bool) : Res × List Event :=
  if !(truthy d.input_url && truthy d.caption_text) then
    let msg := "Caption operation requires input.url and caption.text"
    if workerMode then (.raised msg, []) else (.http 400 (.err msg), [])
  else
    match env.ffmpeg with
    | none =>
        (.http 400 (.err "FFmpeg not available - caption operation requires FFmpeg layer"), [])
    | some _ =>
        let j := resolveJobId d env
        finishSimple j (captionSteps j (d.input_url.getD "") env) oc workerMode
          (.success j env.presigned) "Caption operation failed: "

/-! ### Add-audio handler (`_handle_audio_operation`, lines 372-467) -/

def audioSteps (j vurl aurl : String) (env : Env) : List Step :=
  [.save j "processing" (some 10), .silent, .download vurl, .download aurl,
   .save j "processing" (some 40), .run, .save j "uploading" (some 80),
   .upload env.outputBucketEnv ("audio/" ++ j ++ "/output.mp4"), .presign,
   .save j "completed" (some 100)]

def handleAudio (d : Payload) (env : Env) (oc : RunOracle)
    (workerMode : Bool) : Res × List Event :=
  if !(truthy d.input_url && truthy d.audio_url) then
    let msg := "Audio operation requires input.url and audio.url"
    if workerMode then (.raised msg, []) else (.http 400 (.err msg), [])
  else
    match env.ffmpeg with
    | none =>
        (.http 400 (.err "FFmpeg not available - audio operation requires FFmpeg layer"), [])
    | some _ =>
        let j := resolveJobId d env
        finishSimple j (audioSteps j (d.input_url.getD "") (d.audio_url.getD "") env)
          oc workerMode (.success j env.presigned) "Audio operation failed: "

/-! ### Watermark handler (`_handle_watermark_operation`, lines 470-561) -/

def watermarkSteps (j vurl wurl : String) (env : Env) : List Step :=
  [.save j "processing" (some 10), .silent, .download vurl, .download wurl,
   .save j "processing" (some 40), .run, .save j "uploading" (some 80),
   .upload env.outputBucketEnv ("watermark/" ++ j ++ "/output.mp4"), .presign,
   .save j "completed" (some 100)]

def handleWatermark (d : Payload) (env : Env) (oc : RunOracle)
    (workerMode : Bool) : Res × List Event :=
  if !(truthy d.input_url && truthy d.watermark_url) then
    let msg := "Watermark operation requires input.url and watermark.url"
    if workerMode then (.raised msg, []) else (.http 400 (.err msg), [])
  else
    match env.ffmpeg with
    | none =>
        (.http 400 (.err "FFmpeg not available - watermark operation requires FFmpeg layer"), [])
    | some _ =>
        let j := resolveJobId d env
        finishSimple j (watermarkSteps j (d.input_url.getD "") (d.watermark_url.getD "") env)
          oc workerMode (.success j env.presigned) "Watermark operation failed: "

/-! ### Overlay handler (`_handle_overlay_operation`, lines 564-654) -/

def overlaySteps (j vurl ourl : String) (env : Env) : List Step :=
  [.save j "processing" (some 10), .silent, .download vurl, .download ourl,
   .save j "processing" (some 40), .run, .save j "uploading" (some 80),
   .upload env.outputBucketEnv ("overlay/" ++ j ++ "/output.mp4"), .presign,
   .save j "completed" (some 100)]

def handleOverlay (d : Payload) (env : Env) (oc : RunOracle)
    (workerMode : Bool) : Res × List Event :=
  if !(truthy d.input_url && truthy d.overlay_url) then
    let msg := "Overlay operation requires input.url and overlay.url"
    if workerMode then (.raised msg, []) else (.http 400 (.err msg), [])
  else
    match env.ffmpeg with
    | none =>
        (.http 400 (.err "FFmpeg not available - overlay operation requires FFmpeg layer"), [])
    | some _ =>
        let j := resolveJobId d env
        finishSimple j (overlaySteps j (d.input_url.getD "") (d.overlay_url.getD "") env)
          oc workerMode (.success j env.presigned) "Overlay operation failed: "

/-! ### Merge handler (`_handle_merge_operation`, lines 657-835) -/

/-- Download loop of the merge handler: for the `i`-th of `n` inputs,
download it, then write `downloading` with progress `10 + 30*(i+1)/n`. -/
def mergeDlSteps (j : String) (urls : List String) (n : ℚ) (i : ℕ) : List Step :=
  match urls with
  | [] => []
  | u :: rest =>
      .download u ::
      .save j "downloading" (some (10 + 30 * ((i : ℚ) + 1) / n)) ::
      mergeDlSteps j rest n (i + 1)

/-- Normalization loop of the merge handler: for the `i`-th of `n` inputs,
run the tool, then write `merging` with progress `45 + 50*(i+1)/n`. -/
def mergeNormSteps (j : String) (k : ℕ) (n : ℚ) (i : ℕ) : List Step :=
  match k with
  | 0 => []
  | k + 1 =>
      .run ::
      .save j "merging" (some (45 + 50 * ((i : ℚ) + 1) / n)) ::
      mergeNormSteps j k n (i + 1)

def mergeSteps (j : String) (urls : List String) (env : Env) : List Step :=
  [.save j "processing" (some 5), .silent, .save j "downloading" (some 10)]
  ++ mergeDlSteps j urls (urls.length : ℚ) 0
  ++ [.save j "merging" (some 45), .silent]
  ++ mergeNormSteps j urls.length (urls.length : ℚ) 0
  ++ [.silent, .run, .save j "merging" (some 98),
      .upload env.outputBucketEnv ("merged/" ++ j ++ "/output.mp4"), .presign,
      .save j "completed" (some 100)]

def handleMerge (d : Payload) (env : Env) (oc : RunOracle)
    (workerMode : Bool) : Res × List Event :=
  if d.video_urls.length < 2 then
    let msg := "Merge operation requires at least 2 video URLs"
    if workerMode then (.raised msg, []) else (.http 400 (.err msg), [])
  else
    match env.ffmpeg with
    | none =>
        (.http 400 (.err "FFmpeg not available - merge operation requires FFmpeg layer"), [])
    | some _ =>
        let j := resolveJobId d env
        let tr := (runSteps (mergeSteps j d.video_urls env) oc.failAt).1
        let ok := (runSteps (mergeSteps j d.video_urls env) oc.failAt).2
        if ok then
          if workerMode then
            (.worker (.mergeSuccess j d.video_urls.length env.presigned), tr)
          else (.http 200 (.mergeSuccess j d.video_urls.length env.presigned), tr)
        else
          -- the `failed` write sits in its own try/except-pass: a persistence
          -- failure is swallowed and the original stage error propagates
          let tr2 :=
            match oc.persistFail with
            | some _ => tr
            | none => tr ++ [Event.save j "failed" (some (recProg 100))]
          if workerMode then (.raised oc.failMsg, tr2)
          else (.http 500 (.err ("Merge operation failed: " ++ oc.failMsg)), tr2)

/-! ### Remux handler (`_handle_remux_operation`, lines 838-902)

Fallible collaborator calls of this handler get their own oracle record: the
initial object download, the tool invocation, the artifact upload inside the
same `try`, and the server-side copy used as fallback (and as the direct
path when the tool is absent).  A failure of the download or of the fallback
copy is uncaught and propagates out of the handler. -/

structure RemuxOracle where
  downloadFail : Option String := none
  runFail : Option String := none
  uploadFail : Option String := none
  copyFail : Option String := none
deriving Repr, DecidableEq

def handleRemux (d : Payload) (env : Env) (oc : RemuxOracle) : Res × List Event :=
  let ib := orStr d.input_bucket env.inputBucketEnv
  let ik := d.input_key
  let ob := orStr d.output_bucket env.outputBucketEnv
  let okey := orStr d.output_key
    (if truthy ik then some ("processed/" ++ ik.getD "") else none)
  if !(truthy ib && truthy ik && truthy ob && truthy okey) then
    (.http 400 (.err "Missing required fields: input_bucket, input_key, output_bucket, output_key"), [])
  else
    match env.ffmpeg with
    | some _ =>
        match oc.downloadFail with
        | some m => (.raised m, [])
        | none =>
            let tr0 := [Event.download (ik.getD "")]
            match oc.runFail with
            | some m =>
                match oc.copyFail with
                | some m2 => (.raised m2, tr0)
                | none => (.http 200 (.remuxBody "s3_copy_fallback" (some m)), tr0 ++ [.copy])
            | none =>
                match oc.uploadFail with
                | some m =>
                    match oc.copyFail with
                    | some m2 => (.raised m2, tr0 ++ [.run])
                    | none =>
                        (.http 200 (.remuxBody "s3_copy_fallback" (some m)), tr0 ++ [.run, .copy])
                | none =>
                    (.http 200 (.remuxBody "ffmpeg_copy" none),
                     tr0 ++ [.run, Event.upload ob (okey.getD "")])
    | none =>
        match oc.copyFail with
        | some m => (.raised m, [])
        | none => (.http 200 (.remuxBody "s3_copy" none), [.copy])

/-! ### Lambda entry point (`handler`, lines 905-1038) -/

/-- The operations `handler` treats as async-capable (line 986). -/
def asyncOps : List String := ["merge", "caption", "add-audio", "watermark", "overlay"]

/-- SQS record routing (lines 912-924): `operation` defaults to `"merge"`;
values outside the five known ones raise `ValueError`. -/
def dispatchWorker (d : Payload) (env : Env) (oc : RunOracle) : Res × List Event :=
  let op := d.opField.getD "merge"
  if op = "merge" then handleMerge d env oc true
  else if op = "caption" then handleCaption d env oc true
  else if op = "add-audio" then handleAudio d env oc true
  else if op = "watermark" then handleWatermark d env oc true
  else if op = "overlay" then handleOverlay d env oc true
  else (.raised ("Unknown operation: " ++ op), [])

/-- The `for record in event["Records"]` loop: runs each message in worker
mode, stopping at the first uncaught exception (whose message is returned). -/
def sqsLoop (env : Env) : List (Payload × RunOracle) → Option String × List Event
  | [] => (none, [])
  | (d, oc) :: rest =>
      match dispatchWorker d env oc with
      | (.raised m, tr) => (some m, tr)
      | (_, tr) =>
          let (r, tr2) := sqsLoop env rest
          (r, tr ++ tr2)

/-- The SQS branch of `handler`, together with the function-level
`try/except` (lines 905-906, 1030-1038): an exception raised by a worker-mode
handler is caught there and converted into a 500 response whose body carries
`Handler error: <msg>` — so the lambda invocation itself succeeds and the
queue never sees a failure. -/
def sqsHandler (env : Env) (batch : List (Payload × RunOracle)) : Res × List Event :=
  match sqsLoop env batch with
  | (some m, tr) => (.http 500 (.handlerError m), tr)
  | (none, tr) => (.http 200 .okBody, tr)

/-- Synchronous dispatch of an async-capable operation (lines 1009-1018).
Only reached for `op ∈ asyncOps`. -/
def syncDispatch (op : String) (d : Payload) (env : Env) (oc : RunOracle) :
    Res × List Event :=
  if op = "merge" then handleMerge d env oc false
  else if op = "caption" then handleCaption d env oc false
  else if op = "add-audio" then handleAudio d env oc false
  else if op = "watermark" then handleWatermark d env oc false
  else handleOverlay d env oc false

/-- Wrap a handler outcome with the function-level `try/except` of `handler`:
an uncaught exception becomes a 500 `Handler error` response. -/
def wrapTop (r : Res × List Event) : Res × List Event :=
  match r with
  | (.raised m, tr) => (.http 500 (.handlerError m), tr)
  | other => other

/-- The POST branch of `handler` (lines 972-1021): `operation` defaults to
`"remux"`; an async-capable operation is enqueued when a queue is configured
(persisting a `queued` status with no progress value first) and otherwise
run inline; any other operation value goes to the legacy remux handler.
The admission-path status write and enqueue are modelled as succeeding; no
claim concerns their failure. -/
def postHandler (d : Payload) (env : Env) (oc : RunOracle) (roc : RemuxOracle) :
    Res × List Event :=
  let op := d.opField.getD "remux"
  if op ∈ asyncOps then
    if env.queueUrl ≠ "" ∧ env.sqsClient then
      let j := resolveJobId d env
      (.http 202 (.queuedBody j), [Event.save j "queued" none, Event.enqueue j])
    else
      wrapTop (syncDispatch op d env oc)
  else
    wrapTop (handleRemux d env roc)

/-! ### Job status store (`_save_job_status` lines 154-176,
`_get_job_status` lines 179-188) -/

/-- Metadata dict, abstracted to an association list. -/
abbrev Meta := List (String × String)

structure StatusRecord where
  job_id : String
  status : String
  timestamp : String
  metadata : Meta
  progress : Option ℚ
deriving Repr, DecidableEq

/-- The fixed key pattern `jobs/{job_id}/status.json`. -/
def statusKey (j : String) : String := "jobs/" ++ j ++ "/status.json"

/-- The artifact store's key space, as a map from keys to records. -/
def Store := String → Option StatusRecord

/-- `_save_job_status`: build the record (clamping and rounding the progress
if one was given, omitting the field otherwise; `metadata or \x7b\x7d`
replaces a missing metadata argument by the empty dict) and overwrite
whatever sits at the job's status key. -/
def saveJobStatus (store : Store) (j s ts : String) (m : Option Meta)
    (p : Option ℚ) : Store :=
  fun k =>
    if k = statusKey j then
      some { job_id := j, status := s, timestamp := ts,
             metadata := m.getD [], progress := p.map recProg }
    else store k

/-- What the status fetch can observe from the store client: the record, a
missing-key error, or any other failure. -/
inductive GetOutcome where
  | found (r : StatusRecord)
  | noSuchKey
  | otherFailure (msg : String)
deriving Repr, DecidableEq

/-- `_get_job_status`: `except NoSuchKey: return None` and a final
`except Exception: return None` — so every failure, not only a missing
record, is reported as absent. -/
def getJobStatus : GetOutcome → Option StatusRecord
  | .found r => some r
  | .noSuchKey => none
  | .otherFailure _ => none

/-! ### Audio-stream probe (`_input_has_audio`, lines 57-73) -/

/-- What the probe subprocess can do: fail to spawn (raising, which the
function swallows), or run to completion with an exit code and stdout text —
the `check=False` run never raises on a non-zero exit code. -/
inductive ProbeOutcome where
  | spawnFail
  | ran (exitCode : Int) (stdout : String)
deriving Repr, DecidableEq

/-- Python `str.strip()` whitespace test, over the decoded character list. -/
def pyIsSpace (c : Char) : Bool :=
  c = ' ' || c = '\t' || c = '\n' || c = '\r' || c = '\x0b' || c = '\x0c'

/-- Python `s.strip()` on the character list of the decoded stdout. -/
def stripList (l : List Char) : List Char :=
  ((l.dropWhile pyIsSpace).reverse.dropWhile pyIsSpace).reverse

/-- `_input_has_audio`: `True` when ffprobe is absent or spawning raised;
otherwise `len(stdout.strip()) > 0`, with the exit code never consulted. -/
def inputHasAudio (ffprobePath : Option String) (outcome : ProbeOutcome) : Bool :=
  match ffprobePath with
  | none => true
  | some _ =>
      match outcome with
      | .spawnFail => true
      | .ran _ out => (stripList out.data).length != 0

/-! ### Trace analysis helpers -/

/-- Raw progress argument a step passes to the status store, if any. -/
def stepProg : Step → Option ℚ
  | .save _ _ p => p
  | _ => none

/-- Status a step writes, if any. -/
def stepStatus : Step → Option String
  | .save _ s _ => some s
  | _ => none

/-! ### The merge handler's raw progress sequence -/

/-- Raw download progress values `10 + 30*(i+1)/n`, for `k` inputs starting
at index `i`. -/
def dlProgList (k : ℕ) (n : ℚ) (i : ℕ) : List ℚ :=
  match k with
  | 0 => []
  | k + 1 => (10 + 30 * ((i : ℚ) + 1) / n) :: dlProgList k n (i + 1)

/-- Raw normalization progress values `45 + 50*(i+1)/n`. -/
def normProgList (k : ℕ) (n : ℚ) (i : ℕ) : List ℚ :=
  match k with
  | 0 => []
  | k + 1 => (45 + 50 * ((i : ℚ) + 1) / n) :: normProgList k n (i + 1)

/-- The per-operation required-field check, exactly as the five handlers
perform it at their entry. -/
def missingRequired (op : String) (d : Payload) : Bool :=
  if op = "merge" then decide (d.video_urls.length < 2)
  else if op = "caption" then !(truthy d.input_url && truthy d.caption_text)
  else if op = "add-audio" then !(truthy d.input_url && truthy d.audio_url)
  else if op = "watermark" then !(truthy d.input_url && truthy d.watermark_url)
  else !(truthy d.input_url && truthy d.overlay_url)

/-- The per-operation validation error message. -/
def validationMsg (op : String) : String :=
  if op = "merge" then "Merge operation requires at least 2 video URLs"
  else if op = "caption" then "Caption operation requires input.url and caption.text"
  else if op = "add-audio" then "Audio operation requires input.url and audio.url"
  else if op = "watermark" then "Watermark operation requires input.url and watermark.url"
  else "Overlay operation requires input.url and overlay.url"

/-- The per-operation missing-tool error message. -/
def ffmpegUnavailableMsg (op : String) : String :=
  if op = "caption" then "FFmpeg not available - caption operation requires FFmpeg layer"
  else if op = "add-audio" then "FFmpeg not available - audio operation requires FFmpeg layer"
  else if op = "watermark" then "FFmpeg not available - watermark operation requires FFmpeg layer"
  else "FFmpeg not available - overlay operation requires FFmpeg layer"

/-! ### Theorems -/

theorem rhe_ge_floor (z : ℚ) : ⌊z⌋ ≤ rhe z := by
  unfold rhe
  split
  · exact le_refl _
  split
  · omega
  split <;> omega

theorem rhe_le_floor_add_one (z : ℚ) : rhe z ≤ ⌊z⌋ + 1 := by
  unfold rhe
  split
  · omega
  split
  · exact le_refl _
  split <;> omega

theorem rhe_mono {x y : ℚ} (h : x ≤ y) : rhe x ≤ rhe y := by
  have hf : ⌊x⌋ ≤ ⌊y⌋ := Int.floor_mono h
  rcases eq_or_lt_of_le hf with heq | hlt
  · have hfr : x - (⌊x⌋ : ℚ) ≤ y - (⌊y⌋ : ℚ) := by
      rw [← heq]; linarith
    unfold rhe
    rw [← heq] at hfr ⊢
    by_cases h1 : x - (⌊x⌋ : ℚ) < 1/2
    · rw [if_pos h1]
      split
      · exact le_refl _
      split
      · omega
      split <;> omega
    · rw [if_neg h1]
      have hy1 : ¬ (y - (⌊x⌋ : ℚ) < 1/2) := by
        push_neg at h1 ⊢; linarith
      rw [if_neg hy1]
      by_cases h2 : x - (⌊x⌋ : ℚ) > 1/2
      · rw [if_pos h2]
        have hy2 : y - (⌊x⌋ : ℚ) > 1/2 := lt_of_lt_of_le h2 hfr
        rw [if_pos hy2]
      · rw [if_neg h2]
        by_cases hy2 : y - (⌊x⌋ : ℚ) > 1/2
        · rw [if_pos hy2]
          split <;> omega
        · rw [if_neg hy2]
  · calc rhe x ≤ ⌊x⌋ + 1 := rhe_le_floor_add_one x
      _ ≤ ⌊y⌋ := by omega
      _ ≤ rhe y := rhe_ge_floor y

theorem pyRound1_mono {x y : ℚ} (h : x ≤ y) : pyRound1 x ≤ pyRound1 y := by
  unfold pyRound1
  have h1 : rhe (10 * x) ≤ rhe (10 * y) := rhe_mono (by linarith)
  have h2 : ((rhe (10 * x) : ℚ)) ≤ ((rhe (10 * y) : ℚ)) := by exact_mod_cast h1
  gcongr

theorem clamp_mono {x y : ℚ} (h : x ≤ y) : clamp x ≤ clamp y :=
  max_le_max le_rfl (min_le_min le_rfl h)

theorem recProg_mono {x y : ℚ} (h : x ≤ y) : recProg x ≤ recProg y :=
  pyRound1_mono (clamp_mono h)

theorem clamp_100 : clamp 100 = 100 := by
  unfold clamp; norm_num

theorem pyRound1_100 : pyRound1 100 = 100 := by
  unfold pyRound1 rhe
  norm_num

theorem recProg_100 : recProg 100 = 100 := by
  rw [recProg, clamp_100, pyRound1_100]

theorem clamp_le_100 (x : ℚ) : clamp x ≤ 100 := by
  unfold clamp
  rw [max_le_iff]
  exact ⟨by norm_num, min_le_left _ _⟩

theorem recProg_le_100 (x : ℚ) : recProg x ≤ 100 := by
  have h := pyRound1_mono (clamp_le_100 x)
  rw [pyRound1_100] at h
  exact h

theorem progressValues_filterMap_event (steps : List Step) :
    progressValues (steps.filterMap Step.event) =
      (steps.filterMap stepProg).map recProg := by
  induction steps with
  | nil => rfl
  | cons s rest ih =>
      cases s with
      | save j st p =>
          cases p with
          | none => simpa [progressValues, Step.event, stepProg] using ih
          | some q => simpa [progressValues, Step.event, stepProg] using ih
      | download u => simpa [progressValues, Step.event, stepProg] using ih
      | run => simpa [progressValues, Step.event, stepProg] using ih
      | upload b k => simpa [progressValues, Step.event, stepProg] using ih
      | presign => simpa [progressValues, Step.event, stepProg] using ih
      | silent => simpa [progressValues, Step.event, stepProg] using ih

theorem statusValues_filterMap_event (steps : List Step) :
    statusValues (steps.filterMap Step.event) = steps.filterMap stepStatus := by
  induction steps with
  | nil => rfl
  | cons s rest ih =>
      cases s with
      | save j st p =>
          cases p with
          | none => simpa [statusValues, Step.event, stepStatus] using ih
          | some q => simpa [statusValues, Step.event, stepStatus] using ih
      | download u => simpa [statusValues, Step.event, stepStatus] using ih
      | run => simpa [statusValues, Step.event, stepStatus] using ih
      | upload b k => simpa [statusValues, Step.event, stepStatus] using ih
      | presign => simpa [statusValues, Step.event, stepStatus] using ih
      | silent => simpa [statusValues, Step.event, stepStatus] using ih

/-- The events of a run are the events of some sublist of the step list
(the whole list, or the prefix before the failing step). -/
theorem runSteps_fst_sublist (steps : List Step) (f : Option Nat) :
    ∃ l : List Step, l.Sublist steps ∧ (runSteps steps f).1 = l.filterMap Step.event := by
  cases f with
  | none => exact ⟨steps, List.Sublist.refl _, rfl⟩
  | some k =>
      by_cases hk : k < steps.length
      · exact ⟨steps.take k, List.take_sublist _ _, by simp [runSteps, hk]⟩
      · exact ⟨steps, List.Sublist.refl _, by simp [runSteps, hk]⟩

/-- Progress monotonicity transfers from the raw step arguments to any
run trace, including a trailing `failed` write at progress 100. -/
theorem pairwise_progress_of_steps {steps : List Step} {f : Option Nat}
    (h : List.Pairwise (· ≤ ·) (steps.filterMap stepProg)) :
    List.Pairwise (· ≤ ·) (progressValues ((runSteps steps f).1)) ∧
    ∀ j, List.Pairwise (· ≤ ·)
      (progressValues ((runSteps steps f).1 ++
        [Event.save j "failed" (some (recProg 100))])) := by
  obtain ⟨l, hl, heq⟩ := runSteps_fst_sublist steps f
  have hsub : (l.filterMap stepProg).Sublist (steps.filterMap stepProg) :=
    hl.filterMap _
  have hpl : List.Pairwise (· ≤ ·) (l.filterMap stepProg) := h.sublist hsub
  have hmain : List.Pairwise (· ≤ ·) (progressValues ((runSteps steps f).1)) := by
    rw [heq, progressValues_filterMap_event]
    rw [List.pairwise_map]
    exact hpl.imp (fun hab => recProg_mono hab)
  refine ⟨hmain, fun j => ?_⟩
  have happ : progressValues ((runSteps steps f).1 ++
      [Event.save j "failed" (some (recProg 100))]) =
      progressValues ((runSteps steps f).1) ++ [recProg 100] := by
    simp [progressValues, List.filterMap_append]
  rw [happ]
  rw [List.pairwise_append]
  refine ⟨hmain, List.pairwise_singleton _ _, ?_⟩
  intro a ha b hb
  simp only [List.mem_singleton] at hb
  subst hb
  rw [heq, progressValues_filterMap_event] at ha
  obtain ⟨y, _, hy⟩ := List.mem_map.mp ha
  rw [← hy, recProg_100]
  exact recProg_le_100 y

theorem mergeDl_filterMap (j : String) (urls : List String) (n : ℚ) (i : ℕ) :
    (mergeDlSteps j urls n i).filterMap stepProg = dlProgList urls.length n i := by
  induction urls generalizing i with
  | nil => rfl
  | cons u rest ih =>
      simp [mergeDlSteps, dlProgList, List.filterMap_cons, stepProg, ih]

theorem mergeNorm_filterMap (j : String) (k : ℕ) (n : ℚ) (i : ℕ) :
    (mergeNormSteps j k n i).filterMap stepProg = normProgList k n i := by
  induction k generalizing i with
  | zero => rfl
  | succ k ih =>
      simp [mergeNormSteps, normProgList, List.filterMap_cons, stepProg, ih]

theorem mem_dlProgList {x : ℚ} {k i : ℕ} {n : ℚ} (hx : x ∈ dlProgList k n i) :
    ∃ m : ℕ, i ≤ m ∧ m < i + k ∧ x = 10 + 30 * ((m : ℚ) + 1) / n := by
  induction k generalizing i with
  | zero => simp [dlProgList] at hx
  | succ k ih =>
      rw [dlProgList] at hx
      rcases List.mem_cons.mp hx with h | h
      · exact ⟨i, le_rfl, by omega, h⟩
      · obtain ⟨m, h1, h2, h3⟩ := ih h
        exact ⟨m, by omega, by omega, h3⟩

theorem mem_normProgList {x : ℚ} {k i : ℕ} {n : ℚ} (hx : x ∈ normProgList k n i) :
    ∃ m : ℕ, i ≤ m ∧ m < i + k ∧ x = 45 + 50 * ((m : ℚ) + 1) / n := by
  induction k generalizing i with
  | zero => simp [normProgList] at hx
  | succ k ih =>
      rw [normProgList] at hx
      rcases List.mem_cons.mp hx with h | h
      · exact ⟨i, le_rfl, by omega, h⟩
      · obtain ⟨m, h1, h2, h3⟩ := ih h
        exact ⟨m, by omega, by omega, h3⟩

theorem dlProgList_pairwise (k : ℕ) (n : ℚ) (hn : 0 < n) :
    ∀ i, List.Pairwise (· ≤ ·) (dlProgList k n i) := by
  induction k with
  | zero => intro i; simp [dlProgList]
  | succ k ih =>
      intro i
      rw [dlProgList, List.pairwise_cons]
      refine ⟨fun y hy => ?_, ih (i + 1)⟩
      obtain ⟨m, h1, _, h3⟩ := mem_dlProgList hy
      subst h3
      have hm : ((i : ℚ) + 1) ≤ ((m : ℚ) + 1) := by
        have : (i : ℚ) ≤ (m : ℚ) := by exact_mod_cast Nat.le_of_succ_le_succ (by omega)
        linarith
      gcongr

theorem normProgList_pairwise (k : ℕ) (n : ℚ) (hn : 0 < n) :
    ∀ i, List.Pairwise (· ≤ ·) (normProgList k n i) := by
  induction k with
  | zero => intro i; simp [normProgList]
  | succ k ih =>
      intro i
      rw [normProgList, List.pairwise_cons]
      refine ⟨fun y hy => ?_, ih (i + 1)⟩
      obtain ⟨m, h1, _, h3⟩ := mem_normProgList hy
      subst h3
      have hm : ((i : ℚ) + 1) ≤ ((m : ℚ) + 1) := by
        have : (i : ℚ) ≤ (m : ℚ) := by exact_mod_cast Nat.le_of_succ_le_succ (by omega)
        linarith
      gcongr

theorem dlProgList_ge {x : ℚ} {k i : ℕ} {n : ℚ} (hn : 0 < n)
    (hx : x ∈ dlProgList k n i) : 10 ≤ x := by
  obtain ⟨m, _, _, h3⟩ := mem_dlProgList hx
  subst h3
  have : 0 ≤ 30 * ((m : ℚ) + 1) / n := by positivity
  linarith

theorem dlProgList_le {x : ℚ} {k i : ℕ} {n : ℚ} (hn : 0 < n)
    (hub : ((i + k : ℕ) : ℚ) ≤ n) (hx : x ∈ dlProgList k n i) : x ≤ 40 := by
  obtain ⟨m, _, h2, h3⟩ := mem_dlProgList hx
  subst h3
  have hm : ((m : ℚ) + 1) ≤ n := by
    have : ((m + 1 : ℕ) : ℚ) ≤ ((i + k : ℕ) : ℚ) := by exact_mod_cast by omega
    push_cast at this hub
    linarith
  have hdiv : ((m : ℚ) + 1) / n ≤ 1 := (div_le_one hn).mpr hm
  have : 30 * ((m : ℚ) + 1) / n ≤ 30 := by
    rw [mul_div_assoc]
    nlinarith
  linarith

theorem normProgList_ge {x : ℚ} {k i : ℕ} {n : ℚ} (hn : 0 < n)
    (hx : x ∈ normProgList k n i) : 45 ≤ x := by
  obtain ⟨m, _, _, h3⟩ := mem_normProgList hx
  subst h3
  have : 0 ≤ 50 * ((m : ℚ) + 1) / n := by positivity
  linarith

theorem normProgList_le {x : ℚ} {k i : ℕ} {n : ℚ} (hn : 0 < n)
    (hub : ((i + k : ℕ) : ℚ) ≤ n) (hx : x ∈ normProgList k n i) : x ≤ 95 := by
  obtain ⟨m, _, h2, h3⟩ := mem_normProgList hx
  subst h3
  have hm : ((m : ℚ) + 1) ≤ n := by
    have : ((m + 1 : ℕ) : ℚ) ≤ ((i + k : ℕ) : ℚ) := by exact_mod_cast by omega
    push_cast at this hub
    linarith
  have hdiv : ((m : ℚ) + 1) / n ≤ 1 := (div_le_one hn).mpr hm
  have : 50 * ((m : ℚ) + 1) / n ≤ 50 := by
    rw [mul_div_assoc]
    nlinarith
  linarith

theorem merge_filterMap_stepProg (j : String) (urls : List String) (env : Env) :
    (mergeSteps j urls env).filterMap stepProg =
      5 :: 10 :: (dlProgList urls.length (urls.length : ℚ) 0
        ++ 45 :: (normProgList urls.length (urls.length : ℚ) 0 ++ [98, 100])) := by
  simp [mergeSteps, List.filterMap_append, List.filterMap_cons, stepProg,
        mergeDl_filterMap, mergeNorm_filterMap]

theorem merge_raw_pairwise (j : String) (urls : List String) (env : Env)
    (h2 : 2 ≤ urls.length) :
    List.Pairwise (· ≤ ·) ((mergeSteps j urls env).filterMap stepProg) := by
  rw [merge_filterMap_stepProg]
  have hn : (0 : ℚ) < (urls.length : ℚ) := by
    exact_mod_cast (by omega : 0 < urls.length)
  have hub : (((0 + urls.length : ℕ)) : ℚ) ≤ (urls.length : ℚ) := by simp
  have hdl_ge : ∀ x ∈ dlProgList urls.length (urls.length : ℚ) 0, 10 ≤ x :=
    fun x hx => dlProgList_ge hn hx
  have hdl_le : ∀ x ∈ dlProgList urls.length (urls.length : ℚ) 0, x ≤ 40 :=
    fun x hx => dlProgList_le hn hub hx
  have hnl_ge : ∀ x ∈ normProgList urls.length (urls.length : ℚ) 0, 45 ≤ x :=
    fun x hx => normProgList_ge hn hx
  have hnl_le : ∀ x ∈ normProgList urls.length (urls.length : ℚ) 0, x ≤ 95 :=
    fun x hx => normProgList_le hn hub hx
  have htail : List.Pairwise (· ≤ ·)
      (dlProgList urls.length (urls.length : ℚ) 0
        ++ 45 :: (normProgList urls.length (urls.length : ℚ) 0 ++ [98, 100])) := by
    rw [List.pairwise_append]
    refine ⟨dlProgList_pairwise _ _ hn 0, ?_, ?_⟩
    · rw [List.pairwise_cons]
      refine ⟨?_, ?_⟩
      · intro y hy
        rcases List.mem_append.mp hy with h | h
        · exact hnl_ge y h
        · rcases List.mem_cons.mp h with h | h
          · rw [h]; norm_num
          · rcases List.mem_cons.mp h with h | h
            · rw [h]; norm_num
            · simp at h
      · rw [List.pairwise_append]
        refine ⟨normProgList_pairwise _ _ hn 0, by norm_num, ?_⟩
        intro a ha b hb
        have h95 := hnl_le a ha
        rcases List.mem_cons.mp hb with h | h
        · rw [h]; linarith
        · rcases List.mem_cons.mp h with h | h
          · rw [h]; linarith
          · simp at h
    · intro a ha b hb
      have h40 := hdl_le a ha
      rcases List.mem_cons.mp hb with h | h
      · rw [h]; linarith
      · rcases List.mem_append.mp h with h | h
        · have := hnl_ge b h; linarith
        · rcases List.mem_cons.mp h with h | h
          · rw [h]; linarith
          · rcases List.mem_cons.mp h with h | h
            · rw [h]; linarith
            · simp at h
  rw [List.pairwise_cons]
  refine ⟨?_, ?_⟩
  · intro y hy
    rcases List.mem_cons.mp hy with h | h
    · rw [h]; norm_num
    · rcases List.mem_append.mp h with h | h
      · have := hdl_ge y h; linarith
      · rcases List.mem_cons.mp h with h | h
        · rw [h]; norm_num
        · rcases List.mem_append.mp h with h | h
          · have := hnl_ge y h; linarith
          · rcases List.mem_cons.mp h with h | h
            · rw [h]; norm_num
            · rcases List.mem_cons.mp h with h | h
              · rw [h]; norm_num
              · simp at h
  · rw [List.pairwise_cons]
    refine ⟨?_, htail⟩
    intro y hy
    rcases List.mem_append.mp hy with h | h
    · exact hdl_ge y h
    · rcases List.mem_cons.mp h with h | h
      · rw [h]; norm_num
      · rcases List.mem_append.mp h with h | h
        · have := hnl_ge y h; linarith
        · rcases List.mem_cons.mp h with h | h
          · rw [h]; norm_num
          · rcases List.mem_cons.mp h with h | h
            · rw [h]; norm_num
            · simp at h

/-! ### Per-handler progress monotonicity -/

theorem finishSimple_progress_pairwise (j : String) (steps : List Step)
    (oc : RunOracle) (wm : Bool) (sb : Body) (pre : String)
    (h : List.Pairwise (· ≤ ·) (steps.filterMap stepProg)) :
    List.Pairwise (· ≤ ·) (progressValues (finishSimple j steps oc wm sb pre).2) := by
  obtain ⟨h1, h2⟩ := pairwise_progress_of_steps (f := oc.failAt) h
  unfold finishSimple
  by_cases hok : (runSteps steps oc.failAt).2 = true
  · cases wm <;> simp [hok] <;> exact h1
  · rw [Bool.not_eq_true] at hok
    cases hpf : oc.persistFail with
    | some m => simp [hok, hpf]; exact h1
    | none => cases wm <;> simp [hok, hpf] <;> exact h2 j

theorem caption_raw_progs (j url : String) (env : Env) :
    (captionSteps j url env).filterMap stepProg = [10, 30, 80, 100] := by
  simp [captionSteps, List.filterMap_cons, stepProg]

theorem audio_raw_progs (j vurl aurl : String) (env : Env) :
    (audioSteps j vurl aurl env).filterMap stepProg = [10, 40, 80, 100] := by
  simp [audioSteps, List.filterMap_cons, stepProg]

theorem watermark_raw_progs (j vurl wurl : String) (env : Env) :
    (watermarkSteps j vurl wurl env).filterMap stepProg = [10, 40, 80, 100] := by
  simp [watermarkSteps, List.filterMap_cons, stepProg]

theorem overlay_raw_progs (j vurl ourl : String) (env : Env) :
    (overlaySteps j vurl ourl env).filterMap stepProg = [10, 40, 80, 100] := by
  simp [overlaySteps, List.filterMap_cons, stepProg]

theorem pairwise_10_30_80_100 : List.Pairwise (· ≤ ·) ([10, 30, 80, 100] : List ℚ) := by
  norm_num [List.pairwise_cons]

theorem pairwise_10_40_80_100 : List.Pairwise (· ≤ ·) ([10, 40, 80, 100] : List ℚ) := by
  norm_num [List.pairwise_cons]

theorem handleCaption_progress_pairwise (d : Payload) (env : Env) (oc : RunOracle)
    (wm : Bool) :
    List.Pairwise (· ≤ ·) (progressValues (handleCaption d env oc wm).2) := by
  unfold handleCaption
  by_cases hv : (truthy d.input_url && truthy d.caption_text) = true
  · cases hf : env.ffmpeg with
    | none => simp [hv, hf, progressValues]
    | some p =>
        simp only [hv, Bool.not_true, Bool.false_eq_true, if_false, hf]
        exact finishSimple_progress_pairwise _ _ _ _ _ _
          (by rw [caption_raw_progs]; exact pairwise_10_30_80_100)
  · rw [Bool.not_eq_true] at hv
    cases wm <;> simp [hv, progressValues]

theorem handleAudio_progress_pairwise (d : Payload) (env : Env) (oc : RunOracle)
    (wm : Bool) :
    List.Pairwise (· ≤ ·) (progressValues (handleAudio d env oc wm).2) := by
  unfold handleAudio
  by_cases hv : (truthy d.input_url && truthy d.audio_url) = true
  · cases hf : env.ffmpeg with
    | none => simp [hv, hf, progressValues]
    | some p =>
        simp only [hv, Bool.not_true, Bool.false_eq_true, if_false, hf]
        exact finishSimple_progress_pairwise _ _ _ _ _ _
          (by rw [audio_raw_progs]; exact pairwise_10_40_80_100)
  · rw [Bool.not_eq_true] at hv
    cases wm <;> simp [hv, progressValues]

theorem handleWatermark_progress_pairwise (d : Payload) (env : Env) (oc : RunOracle)
    (wm : Bool) :
    List.Pairwise (· ≤ ·) (progressValues (handleWatermark d env oc wm).2) := by
  unfold handleWatermark
  by_cases hv : (truthy d.input_url && truthy d.watermark_url) = true
  · cases hf : env.ffmpeg with
    | none => simp [hv, hf, progressValues]
    | some p =>
        simp only [hv, Bool.not_true, Bool.false_eq_true, if_false, hf]
        exact finishSimple_progress_pairwise _ _ _ _ _ _
          (by rw [watermark_raw_progs]; exact pairwise_10_40_80_100)
  · rw [Bool.not_eq_true] at hv
    cases wm <;> simp [hv, progressValues]

theorem handleOverlay_progress_pairwise (d : Payload) (env : Env) (oc : RunOracle)
    (wm : Bool) :
    List.Pairwise (· ≤ ·) (progressValues (handleOverlay d env oc wm).2) := by
  unfold handleOverlay
  by_cases hv : (truthy d.input_url && truthy d.overlay_url) = true
  · cases hf : env.ffmpeg with
    | none => simp [hv, hf, progressValues]
    | some p =>
        simp only [hv, Bool.not_true, Bool.false_eq_true, if_false, hf]
        exact finishSimple_progress_pairwise _ _ _ _ _ _
          (by rw [overlay_raw_progs]; exact pairwise_10_40_80_100)
  · rw [Bool.not_eq_true] at hv
    cases wm <;> simp [hv, progressValues]

theorem handleMerge_progress_pairwise (d : Payload) (env : Env) (oc : RunOracle)
    (wm : Bool) :
    List.Pairwise (· ≤ ·) (progressValues (handleMerge d env oc wm).2) := by
  unfold handleMerge
  by_cases hv : d.video_urls.length < 2
  · cases wm <;> simp [hv, progressValues]
  · cases hf : env.ffmpeg with
    | none => simp [hv, hf, progressValues]
    | some p =>
        simp only [hv, if_false, hf]
        obtain ⟨h1, h2⟩ := pairwise_progress_of_steps (f := oc.failAt)
          (merge_raw_pairwise (resolveJobId d env) d.video_urls env (by omega))
        by_cases hok :
            (runSteps (mergeSteps (resolveJobId d env) d.video_urls env) oc.failAt).2 = true
        · cases wm <;> simp [hok] <;> exact h1
        · rw [Bool.not_eq_true] at hok
          cases hpf : oc.persistFail with
          | some m => cases wm <;> simp [hok, hpf] <;> exact h1
          | none => cases wm <;> simp [hok, hpf] <;> exact h2 (resolveJobId d env)

/-! ### Trace characterization and status sequences -/

theorem finishSimple_trace_ok (j : String) (steps : List Step) (oc : RunOracle)
    (wm : Bool) (sb : Body) (pre : String) (hok : oc.failAt = none) :
    (finishSimple j steps oc wm sb pre).2 = steps.filterMap Step.event := by
  unfold finishSimple runSteps
  rw [hok]
  cases wm <;> simp

theorem finishSimple_trace_fail (j : String) (steps : List Step) (oc : RunOracle)
    (wm : Bool) (sb : Body) (pre : String) (k : Nat) (hk : oc.failAt = some k)
    (hlt : k < steps.length) (hpf : oc.persistFail = none) :
    (finishSimple j steps oc wm sb pre).2 =
      (steps.take k).filterMap Step.event ++
        [Event.save j "failed" (some (recProg 100))] := by
  unfold finishSimple runSteps
  rw [hk]
  cases wm <;> simp [hlt, hpf]

theorem handleCaption_eq (d : Payload) (env : Env) (oc : RunOracle) (wm : Bool)
    (p : String) (hv : (truthy d.input_url && truthy d.caption_text) = true)
    (hf : env.ffmpeg = some p) :
    handleCaption d env oc wm =
      finishSimple (resolveJobId d env)
        (captionSteps (resolveJobId d env) (d.input_url.getD "") env) oc wm
        (.success (resolveJobId d env) env.presigned) "Caption operation failed: " := by
  unfold handleCaption
  simp [hv, hf]

theorem handleAudio_eq (d : Payload) (env : Env) (oc : RunOracle) (wm : Bool)
    (p : String) (hv : (truthy d.input_url && truthy d.audio_url) = true)
    (hf : env.ffmpeg = some p) :
    handleAudio d env oc wm =
      finishSimple (resolveJobId d env)
        (audioSteps (resolveJobId d env) (d.input_url.getD "") (d.audio_url.getD "") env)
        oc wm (.success (resolveJobId d env) env.presigned) "Audio operation failed: " := by
  unfold handleAudio
  simp [hv, hf]

theorem handleWatermark_eq (d : Payload) (env : Env) (oc : RunOracle) (wm : Bool)
    (p : String) (hv : (truthy d.input_url && truthy d.watermark_url) = true)
    (hf : env.ffmpeg = some p) :
    handleWatermark d env oc wm =
      finishSimple (resolveJobId d env)
        (watermarkSteps (resolveJobId d env) (d.input_url.getD "")
          (d.watermark_url.getD "") env)
        oc wm (.success (resolveJobId d env) env.presigned) "Watermark operation failed: " := by
  unfold handleWatermark
  simp [hv, hf]

theorem handleOverlay_eq (d : Payload) (env : Env) (oc : RunOracle) (wm : Bool)
    (p : String) (hv : (truthy d.input_url && truthy d.overlay_url) = true)
    (hf : env.ffmpeg = some p) :
    handleOverlay d env oc wm =
      finishSimple (resolveJobId d env)
        (overlaySteps (resolveJobId d env) (d.input_url.getD "")
          (d.overlay_url.getD "") env)
        oc wm (.success (resolveJobId d env) env.presigned) "Overlay operation failed: " := by
  unfold handleOverlay
  simp [hv, hf]

theorem handleMerge_trace_ok (d : Payload) (env : Env) (oc : RunOracle) (wm : Bool)
    (p : String) (hv : ¬ d.video_urls.length < 2) (hf : env.ffmpeg = some p)
    (hok : oc.failAt = none) :
    (handleMerge d env oc wm).2 =
      (mergeSteps (resolveJobId d env) d.video_urls env).filterMap Step.event := by
  unfold handleMerge runSteps
  rw [hok]
  cases wm <;> simp [hv, hf]

theorem handleMerge_trace_fail (d : Payload) (env : Env) (oc : RunOracle) (wm : Bool)
    (p : String) (k : Nat) (hv : ¬ d.video_urls.length < 2) (hf : env.ffmpeg = some p)
    (hk : oc.failAt = some k)
    (hlt : k < (mergeSteps (resolveJobId d env) d.video_urls env).length)
    (hpf : oc.persistFail = none) :
    (handleMerge d env oc wm).2 =
      ((mergeSteps (resolveJobId d env) d.video_urls env).take k).filterMap Step.event ++
        [Event.save (resolveJobId d env) "failed" (some (recProg 100))] := by
  unfold handleMerge runSteps
  rw [hk]
  cases wm <;> simp [hv, hf, hlt, hpf]

theorem captionSteps_statuses (j url : String) (env : Env) :
    (captionSteps j url env).filterMap stepStatus =
      ["processing", "processing", "uploading", "completed"] := by
  simp [captionSteps, stepStatus, List.filterMap_cons]

theorem audioSteps_statuses (j vurl aurl : String) (env : Env) :
    (audioSteps j vurl aurl env).filterMap stepStatus =
      ["processing", "processing", "uploading", "completed"] := by
  simp [audioSteps, stepStatus, List.filterMap_cons]

theorem watermarkSteps_statuses (j vurl wurl : String) (env : Env) :
    (watermarkSteps j vurl wurl env).filterMap stepStatus =
      ["processing", "processing", "uploading", "completed"] := by
  simp [watermarkSteps, stepStatus, List.filterMap_cons]

theorem overlaySteps_statuses (j vurl ourl : String) (env : Env) :
    (overlaySteps j vurl ourl env).filterMap stepStatus =
      ["processing", "processing", "uploading", "completed"] := by
  simp [overlaySteps, stepStatus, List.filterMap_cons]

theorem mergeDl_statuses (j : String) (urls : List String) (n : ℚ) (i : ℕ) :
    (mergeDlSteps j urls n i).filterMap stepStatus =
      List.replicate urls.length "downloading" := by
  induction urls generalizing i with
  | nil => rfl
  | cons u rest ih =>
      simp [mergeDlSteps, List.filterMap_cons, stepStatus, ih, List.replicate_succ]

theorem mergeNorm_statuses (j : String) (k : ℕ) (n : ℚ) (i : ℕ) :
    (mergeNormSteps j k n i).filterMap stepStatus = List.replicate k "merging" := by
  induction k generalizing i with
  | zero => rfl
  | succ k ih =>
      simp [mergeNormSteps, List.filterMap_cons, stepStatus, ih, List.replicate_succ]

theorem mergeSteps_statuses (j : String) (urls : List String) (env : Env) :
    (mergeSteps j urls env).filterMap stepStatus =
      "processing" :: "downloading" ::
        (List.replicate urls.length "downloading" ++
          "merging" :: (List.replicate urls.length "merging" ++
            ["merging", "completed"])) := by
  simp [mergeSteps, List.filterMap_append, List.filterMap_cons, stepStatus,
        mergeDl_statuses, mergeNorm_statuses]

theorem statusValues_append (tr1 tr2 : List Event) :
    statusValues (tr1 ++ tr2) = statusValues tr1 ++ statusValues tr2 := by
  simp [statusValues, List.filterMap_append]

theorem clamp_eq_min_max (p : ℚ) : clamp p = min 100 (max 0 p) := by
  unfold clamp
  rw [max_min_distrib_left]
  norm_num

/-! ### Claim theorems -/

/-- C5 counterexample: with ffprobe present, a probe run that exits with the
non-zero code 1 (an unsuccessful invocation) and empty stdout makes
`_input_has_audio` return `False`, contradicting the claim that `false` is
returned only when the probe tool runs successfully. -/
theorem claim_C5_counterexample :
    inputHasAudio (some "/usr/bin/ffprobe") (.ran 1 "") = false ∧ (1 : Int) ≠ 0 := by
  exact ⟨by decide, by decide⟩

/-- C5 (amended): the audio probe returns `true` whenever the probe tool is
absent, and a raising probe invocation (spawn failure) is swallowed and
defaults to `true`; but when the tool process runs to completion the result
is `false` exactly when the stripped stdout is empty, regardless of the exit
code — not only on successful runs. -/
theorem claim_C5 :
    (∀ o : ProbeOutcome, inputHasAudio none o = true) ∧
    (∀ p : String, inputHasAudio (some p) .spawnFail = true) ∧
    (∀ (p out : String) (c : Int),
      inputHasAudio (some p) (.ran c out) = ((stripList out.data).length != 0)) := by
  exact ⟨fun o => rfl, fun p => rfl, fun p out c => rfl⟩

/-- C6 counterexample: a retrieval failure that is not a missing record — for
example a connection error — is also reported as absent (`None`) by
`_get_job_status`, because of its catch-all `except Exception: return None`. -/
theorem claim_C6_counterexample :
    getJobStatus (.otherFailure "connection reset") = none := rfl

/-- C6 (amended): the status load returns the record on success and `None`
when no record exists, but it does not distinguish "unknown job" from a
retrieval failure: every non-missing-record store failure is also reported
as absent. -/
theorem claim_C6 :
    (∀ r, getJobStatus (.found r) = some r) ∧
    getJobStatus .noSuchKey = none ∧
    (∀ m, getJobStatus (.otherFailure m) = none) := by
  exact ⟨fun r => rfl, rfl, fun m => rfl⟩

/-- C8 (confirmed): `_save_job_status` writes, at key `jobs/{j}/status.json`,
a record with the given job id, status and metadata, and with progress
`round(min(100, max(0, p)), 1)` when a numeric progress `p` is given and no
progress field otherwise; the write unconditionally overwrites any prior
record at that job's key (last-write-wins). -/
theorem claim_C8 (store : Store) (j s ts : String) (m : Meta) (p : ℚ) :
    (saveJobStatus store j s ts (some m) (some p)) (statusKey j) =
      some { job_id := j, status := s, timestamp := ts, metadata := m,
             progress := some (pyRound1 (min 100 (max 0 p))) } ∧
    (saveJobStatus store j s ts (some m) none) (statusKey j) =
      some { job_id := j, status := s, timestamp := ts, metadata := m,
             progress := none } ∧
    (∀ k, k ≠ statusKey j →
      (saveJobStatus store j s ts (some m) (some p)) k = store k) ∧
    (∀ s' ts' m' p',
      saveJobStatus (saveJobStatus store j s' ts' m' p') j s ts (some m) (some p) =
        saveJobStatus store j s ts (some m) (some p)) := by
  refine ⟨?_, ?_, ?_, ?_⟩
  · simp [saveJobStatus, recProg, clamp_eq_min_max]
  · simp [saveJobStatus]
  · intro k hk
    simp [saveJobStatus, hk]
  · intro s' ts' m' p'
    funext k
    by_cases hk : k = statusKey j <;> simp [saveJobStatus, hk]

/-- C8 witness: the overwrite-insensitive part evaluated at a concrete
key distinct from the job's status key. -/
theorem claim_C8_witness :
    (saveJobStatus (fun _ => none) "j1" "queued" "0" (some []) (some 150)) "other" = none :=
  (claim_C8 (fun _ => none) "j1" "queued" "0" [] 150).2.2.1 "other" (by decide)

/-- C9 (confirmed): on a remux request whose four location fields resolve,
a failing tool invocation (tool present) makes the handler fall back to a
server-side object copy and report `s3_copy_fallback` with the underlying
error text in a 200 response, and an absent tool makes it copy directly and
report `s3_copy`. -/
theorem claim_C9 :
    (∀ (d : Payload) (env : Env) (oc : RemuxOracle) (p e : String),
      truthy (orStr d.input_bucket env.inputBucketEnv) = true →
      truthy d.input_key = true →
      truthy (orStr d.output_bucket env.outputBucketEnv) = true →
      truthy (orStr d.output_key
        (if truthy d.input_key then some ("processed/" ++ d.input_key.getD "") else none)) = true →
      env.ffmpeg = some p → oc.downloadFail = none → oc.runFail = some e →
      oc.copyFail = none →
      handleRemux d env oc =
        (.http 200 (.remuxBody "s3_copy_fallback" (some e)),
         [Event.download (d.input_key.getD ""), .copy])) ∧
    (∀ (d : Payload) (env : Env) (oc : RemuxOracle),
      truthy (orStr d.input_bucket env.inputBucketEnv) = true →
      truthy d.input_key = true →
      truthy (orStr d.output_bucket env.outputBucketEnv) = true →
      truthy (orStr d.output_key
        (if truthy d.input_key then some ("processed/" ++ d.input_key.getD "") else none)) = true →
      env.ffmpeg = none → oc.copyFail = none →
      handleRemux d env oc = (.http 200 (.remuxBody "s3_copy" none), [.copy])) := by
  constructor
  · intro d env oc p e h1 h2 h3 h4 hf hdl hrun hcopy
    simp only [h2, if_true] at h4
    unfold handleRemux
    simp [h1, h2, h3, h4, hf, hdl, hrun, hcopy]
  · intro d env oc h1 h2 h3 h4 hf hcopy
    simp only [h2, if_true] at h4
    unfold handleRemux
    simp [h1, h2, h3, h4, hf, hcopy]

/-- C9 witness: both remux fallback behaviours evaluated on concrete
requests. -/
theorem claim_C9_witness :
    handleRemux { input_key := some "k" }
        { inputBucketEnv := some "in", outputBucketEnv := some "out",
          ffmpeg := some "/usr/bin/ffmpeg" }
        { runFail := some "remux exploded" } =
      (.http 200 (.remuxBody "s3_copy_fallback" (some "remux exploded")),
       [Event.download "k", .copy]) ∧
    handleRemux { input_key := some "k" }
        { inputBucketEnv := some "in", outputBucketEnv := some "out" } {} =
      (.http 200 (.remuxBody "s3_copy" none), [.copy]) :=
  ⟨claim_C9.1 { input_key := some "k" }
      { inputBucketEnv := some "in", outputBucketEnv := some "out",
        ffmpeg := some "/usr/bin/ffmpeg" }
      { runFail := some "remux exploded" } "/usr/bin/ffmpeg" "remux exploded"
      rfl rfl rfl rfl rfl rfl rfl rfl,
   claim_C9.2 { input_key := some "k" }
      { inputBucketEnv := some "in", outputBucketEnv := some "out" } {}
      rfl rfl rfl rfl rfl rfl⟩

/-- C1 (confirmed): a request missing a required field for its operation is
rejected by the handler's entry check before any side effect: in synchronous
execution the result is a 400 response carrying the validation message and
an empty side-effect trace; in worker mode the handler raises `ValueError`
with the same message, again with an empty trace (no download, no tool
invocation, no upload, no status write); and the SQS entry point converts
that raise — via the function-level `try/except` — into a returned 500
response, so the lambda invocation succeeds and the queue never redelivers
the message. -/
theorem claim_C1 (op : String) (d : Payload) (env : Env) (oc : RunOracle)
    (hmem : op ∈ asyncOps) (hop : d.opField = some op)
    (hv : missingRequired op d = true) :
    syncDispatch op d env oc = (.http 400 (.err (validationMsg op)), []) ∧
    dispatchWorker d env oc = (.raised (validationMsg op), []) ∧
    sqsHandler env [(d, oc)] = (.http 500 (.handlerError (validationMsg op)), []) := by
  simp only [asyncOps, List.mem_cons, List.mem_singleton, List.not_mem_nil, or_false] at hmem
  rcases hmem with h | h | h | h | h <;> subst h
  · rw [missingRequired, if_pos rfl, decide_eq_true_eq] at hv
    refine ⟨?_, ?_, ?_⟩ <;>
      simp [syncDispatch, dispatchWorker, sqsHandler, sqsLoop, handleMerge,
        hop, hv, validationMsg]
  · rw [missingRequired, if_neg (by decide), if_pos rfl] at hv
    refine ⟨?_, ?_, ?_⟩ <;>
      simp [syncDispatch, dispatchWorker, sqsHandler, sqsLoop, handleCaption,
        hop, hv, validationMsg]
  · rw [missingRequired, if_neg (by decide), if_neg (by decide), if_pos rfl] at hv
    refine ⟨?_, ?_, ?_⟩ <;>
      simp [syncDispatch, dispatchWorker, sqsHandler, sqsLoop, handleAudio,
        hop, hv, validationMsg]
  · rw [missingRequired, if_neg (by decide), if_neg (by decide), if_neg (by decide),
        if_pos rfl] at hv
    refine ⟨?_, ?_, ?_⟩ <;>
      simp [syncDispatch, dispatchWorker, sqsHandler, sqsLoop, handleWatermark,
        hop, hv, validationMsg]
  · rw [missingRequired, if_neg (by decide), if_neg (by decide), if_neg (by decide),
        if_neg (by decide)] at hv
    refine ⟨?_, ?_, ?_⟩ <;>
      simp [syncDispatch, dispatchWorker, sqsHandler, sqsLoop, handleOverlay,
        hop, hv, validationMsg]

/-- C1 witness: a caption request with no input URL and no text. -/
theorem claim_C1_witness :
    syncDispatch "caption" { opField := some "caption" } {} {} =
      (.http 400 (.err "Caption operation requires input.url and caption.text"), []) ∧
    dispatchWorker { opField := some "caption" } {} {} =
      (.raised "Caption operation requires input.url and caption.text", []) ∧
    sqsHandler {} [({ opField := some "caption" }, {})] =
      (.http 500 (.handlerError "Caption operation requires input.url and caption.text"), []) := by
  have h := claim_C1 "caption" { opField := some "caption" } {} {}
    (by decide) rfl (by decide)
  simpa [validationMsg] using h

/-- C10 (confirmed): a queue-delivered caption/add-audio/watermark/overlay
job with valid fields but no ffmpeg found makes the handler return the 400
error dict — the missing-tool branch ignores `worker_mode` and does not
raise — with an empty trace, so no status record of any kind (in particular
no `failed` record) is written; the batch loop then treats the message as
processed and the lambda returns 200, so the message is never redelivered. -/
theorem claim_C10 (op : String) (d : Payload) (env : Env) (oc : RunOracle)
    (hmem : op ∈ ["caption", "add-audio", "watermark", "overlay"])
    (hop : d.opField = some op) (hv : missingRequired op d = false)
    (hf : env.ffmpeg = none) :
    dispatchWorker d env oc = (.http 400 (.err (ffmpegUnavailableMsg op)), []) ∧
    sqsHandler env [(d, oc)] = (.http 200 .okBody, []) ∧
    statusValues (sqsHandler env [(d, oc)]).2 = [] := by
  simp only [List.mem_cons, List.mem_singleton, List.not_mem_nil, or_false] at hmem
  rcases hmem with h | h | h | h <;> subst h
  · rw [missingRequired, if_neg (by decide), if_pos rfl, Bool.not_eq_false'] at hv
    refine ⟨?_, ?_, ?_⟩ <;>
      simp [dispatchWorker, sqsHandler, sqsLoop, handleCaption, hop, hv, hf,
        ffmpegUnavailableMsg, statusValues]
  · rw [missingRequired, if_neg (by decide), if_neg (by decide), if_pos rfl,
        Bool.not_eq_false'] at hv
    refine ⟨?_, ?_, ?_⟩ <;>
      simp [dispatchWorker, sqsHandler, sqsLoop, handleAudio, hop, hv, hf,
        ffmpegUnavailableMsg, statusValues]
  · rw [missingRequired, if_neg (by decide), if_neg (by decide), if_neg (by decide),
        if_pos rfl, Bool.not_eq_false'] at hv
    refine ⟨?_, ?_, ?_⟩ <;>
      simp [dispatchWorker, sqsHandler, sqsLoop, handleWatermark, hop, hv, hf,
        ffmpegUnavailableMsg, statusValues]
  · rw [missingRequired, if_neg (by decide), if_neg (by decide), if_neg (by decide),
        if_neg (by decide), Bool.not_eq_false'] at hv
    refine ⟨?_, ?_, ?_⟩ <;>
      simp [dispatchWorker, sqsHandler, sqsLoop, handleOverlay, hop, hv, hf,
        ffmpegUnavailableMsg, statusValues]

/-- C10 witness: a valid caption message delivered by the queue in an
environment without ffmpeg. -/
theorem claim_C10_witness :
    dispatchWorker
        { opField := some "caption", input_url := some "http://v",
          caption_text := some "hello" } {} {} =
      (.http 400 (.err "FFmpeg not available - caption operation requires FFmpeg layer"), []) ∧
    sqsHandler {}
        [({ opField := some "caption", input_url := some "http://v",
            caption_text := some "hello" }, {})] =
      (.http 200 .okBody, []) ∧
    statusValues (sqsHandler {}
        [({ opField := some "caption", input_url := some "http://v",
            caption_text := some "hello" }, {})]).2 = [] := by
  have h := claim_C10 "caption"
    { opField := some "caption", input_url := some "http://v",
      caption_text := some "hello" } {} {} (by decide) rfl (by decide) rfl
  simpa [ffmpegUnavailableMsg] using h

/-- C4 counterexample: a direct POST whose operation value `"bogus"` lies
outside the documented set is not rejected with a request-validation error:
it is routed to the legacy remux handler, which here succeeds with a 200
response reporting `s3_copy` and performs a server-side copy — an executed
operation with a side effect. -/
theorem claim_C4_counterexample :
    postHandler { opField := some "bogus", input_key := some "k" }
        { inputBucketEnv := some "in", outputBucketEnv := some "out" } {} {} =
      (.http 200 (.remuxBody "s3_copy" none), [.copy]) := by
  decide

/-- C4 (amended): the closed set is enforced only on the queue path: an SQS
message whose operation lies outside {merge, caption, add-audio, watermark,
overlay} raises `Unknown operation`, which the function-level handler turns
into a 500 response with no handler executed and no side effect (and no
retry).  On the POST path, any operation value outside that five-element
set — `"remux"` or unknown values alike — is routed to the legacy remux
handler rather than rejected. -/
theorem claim_C4 :
    (∀ (op : String) (d : Payload) (env : Env) (oc : RunOracle),
      d.opField = some op → op ∉ asyncOps →
      sqsHandler env [(d, oc)] =
        (.http 500 (.handlerError ("Unknown operation: " ++ op)), [])) ∧
    (∀ (op : String) (d : Payload) (env : Env) (oc : RunOracle) (roc : RemuxOracle),
      d.opField = some op → op ∉ asyncOps →
      postHandler d env oc roc = wrapTop (handleRemux d env roc)) := by
  constructor
  · intro op d env oc hop hmem
    simp only [asyncOps, List.mem_cons, List.mem_singleton, List.not_mem_nil,
      or_false, not_or] at hmem
    obtain ⟨h1, h2, h3, h4, h5⟩ := hmem
    simp [sqsHandler, sqsLoop, dispatchWorker, hop, h1, h2, h3, h4, h5]
  · intro op d env oc roc hop hmem
    simp [postHandler, hop, hmem]

/-- C4 witness: the queue-path half at a concrete unknown operation, and the
POST-path half at operation `"remux"`. -/
theorem claim_C4_witness :
    sqsHandler {} [({ opField := some "bogus" }, {})] =
      (.http 500 (.handlerError "Unknown operation: bogus"), []) ∧
    postHandler { opField := some "remux", input_key := some "k" } {} {} {} =
      wrapTop (handleRemux { opField := some "remux", input_key := some "k" } {} {}) :=
  ⟨claim_C4.1 "bogus" { opField := some "bogus" } {} {} rfl (by decide),
   claim_C4.2 "remux" { opField := some "remux", input_key := some "k" } {} {} {}
     rfl (by decide)⟩

theorem finishSimple_fst_persist (j : String) (steps : List Step) (oc : RunOracle)
    (wm : Bool) (sb : Body) (pre : String) (k : Nat) (m : String)
    (hk : oc.failAt = some k) (hlt : k < steps.length)
    (hpf : oc.persistFail = some m) :
    (finishSimple j steps oc wm sb pre).1 = .raised m := by
  unfold finishSimple runSteps
  rw [hk]
  cases wm <;> simp [hlt, hpf]

/-- C7 counterexample: a worker-mode caption run whose download stage raises
`download failed` and whose subsequent `failed`-status write raises
`status store down` propagates the persistence error, not the original
stage error — the caption handler's `except` block has no inner try. -/
theorem claim_C7_counterexample :
    (handleCaption
        { opField := some "caption", input_url := some "http://v",
          caption_text := some "hi" }
        { ffmpeg := some "/usr/bin/ffmpeg" }
        { failAt := some 2, failMsg := "download failed",
          persistFail := some "status store down" } true).1 =
      .raised "status store down" ∧
    "status store down" ≠ "download failed" := by
  exact ⟨by decide, by decide⟩

/-- C7 (amended): only the merge handler wraps the `failed`-status write in
its own try/except-pass, so only there a persistence failure is swallowed
and the original stage error re-raised to the queue; in the caption,
add-audio, watermark and overlay handlers the raising `failed`-status write
replaces the stage error, and the persistence error is what propagates. -/
theorem claim_C7 (d : Payload) (env : Env) (oc : RunOracle) (p m : String) (k : Nat)
    (hf : env.ffmpeg = some p) (hk : oc.failAt = some k)
    (hpf : oc.persistFail = some m) :
    ((truthy d.input_url && truthy d.caption_text) = true →
      k < (captionSteps (resolveJobId d env) (d.input_url.getD "") env).length →
      (handleCaption d env oc true).1 = .raised m) ∧
    ((truthy d.input_url && truthy d.audio_url) = true →
      k < (audioSteps (resolveJobId d env) (d.input_url.getD "")
            (d.audio_url.getD "") env).length →
      (handleAudio d env oc true).1 = .raised m) ∧
    ((truthy d.input_url && truthy d.watermark_url) = true →
      k < (watermarkSteps (resolveJobId d env) (d.input_url.getD "")
            (d.watermark_url.getD "") env).length →
      (handleWatermark d env oc true).1 = .raised m) ∧
    ((truthy d.input_url && truthy d.overlay_url) = true →
      k < (overlaySteps (resolveJobId d env) (d.input_url.getD "")
            (d.overlay_url.getD "") env).length →
      (handleOverlay d env oc true).1 = .raised m) ∧
    (¬ d.video_urls.length < 2 →
      k < (mergeSteps (resolveJobId d env) d.video_urls env).length →
      (handleMerge d env oc true).1 = .raised oc.failMsg) := by
  refine ⟨?_, ?_, ?_, ?_, ?_⟩
  · intro hv hlt
    rw [handleCaption_eq d env oc true p hv hf]
    exact finishSimple_fst_persist _ _ _ _ _ _ k m hk hlt hpf
  · intro hv hlt
    rw [handleAudio_eq d env oc true p hv hf]
    exact finishSimple_fst_persist _ _ _ _ _ _ k m hk hlt hpf
  · intro hv hlt
    rw [handleWatermark_eq d env oc true p hv hf]
    exact finishSimple_fst_persist _ _ _ _ _ _ k m hk hlt hpf
  · intro hv hlt
    rw [handleOverlay_eq d env oc true p hv hf]
    exact finishSimple_fst_persist _ _ _ _ _ _ k m hk hlt hpf
  · intro hv hlt
    unfold handleMerge runSteps
    rw [hk]
    simp [hv, hf, hlt, hpf]

/-- C7 witness: the caption and merge halves at concrete failing runs. -/
theorem claim_C7_witness :
    (handleCaption
        { opField := some "caption", input_url := some "http://v",
          caption_text := some "hi" }
        { ffmpeg := some "/opt/bin/ffmpeg" }
        { failAt := some 4, failMsg := "tool died",
          persistFail := some "store down" } true).1 = .raised "store down" ∧
    (handleMerge { opField := some "merge", video_urls := ["a", "b"] }
        { ffmpeg := some "/opt/bin/ffmpeg" }
        { failAt := some 4, failMsg := "tool died",
          persistFail := some "store down" } true).1 = .raised "tool died" :=
  ⟨(claim_C7
      { opField := some "caption", input_url := some "http://v",
        caption_text := some "hi" }
      { ffmpeg := some "/opt/bin/ffmpeg" }
      { failAt := some 4, failMsg := "tool died", persistFail := some "store down" }
      "/opt/bin/ffmpeg" "store down" 4 rfl rfl rfl).1 (by decide) (by decide),
   (claim_C7 { opField := some "merge", video_urls := ["a", "b"] }
      { ffmpeg := some "/opt/bin/ffmpeg" }
      { failAt := some 4, failMsg := "tool died", persistFail := some "store down" }
      "/opt/bin/ffmpeg" "store down" 4 rfl rfl rfl).2.2.2.2 (by decide) (by decide)⟩

theorem progressValues_append (tr1 tr2 : List Event) :
    progressValues (tr1 ++ tr2) = progressValues tr1 ++ progressValues tr2 := by
  simp [progressValues, List.filterMap_append]

theorem uploading_not_mem_merge_statuses (n : ℕ) :
    "uploading" ∉
      ("processing" :: "downloading" ::
        (List.replicate n "downloading" ++
          "merging" :: (List.replicate n "merging" ++ ["merging", "completed"]))) := by
  intro h
  simp only [List.mem_cons, List.mem_append, List.mem_replicate,
    List.mem_singleton, List.not_mem_nil] at h
  rcases h with h | h | ⟨-, h⟩ | h | ⟨-, h⟩ | h | h | h <;> exact absurd h (by decide)

/-- C2 counterexample: a successful merge run records no `uploading` status
at all, and a successful caption run records no `downloading` status —
contradicting the claimed shared
queued/processing/downloading/…/uploading/completed sequence. -/
theorem claim_C2_counterexample :
    (handleMerge { opField := some "merge", video_urls := ["a", "b"] }
        { ffmpeg := some "/usr/bin/ffmpeg" } {} false).1 =
      .http 200 (.mergeSuccess "genid000" 2 "https://presigned") ∧
    "uploading" ∉ statusValues
      (handleMerge { opField := some "merge", video_urls := ["a", "b"] }
        { ffmpeg := some "/usr/bin/ffmpeg" } {} false).2 ∧
    (handleCaption
        { opField := some "caption", input_url := some "u", caption_text := some "t" }
        { ffmpeg := some "/usr/bin/ffmpeg" } {} false).1 =
      .http 200 (.success "genid000" "https://presigned") ∧
    "downloading" ∉ statusValues
      (handleCaption
        { opField := some "caption", input_url := some "u", caption_text := some "t" }
        { ffmpeg := some "/usr/bin/ffmpeg" } {} false).2 := by
  refine ⟨by decide, by decide, by decide, by decide⟩

/-- C2 (amended): the handlers do not share one status vocabulary.  A
successful merge run writes `processing`, `downloading` (repeated per
input), `merging` (repeated), `completed` — with no `uploading` status; a
successful caption/add-audio/watermark/overlay run writes `processing`,
`processing`, `uploading`, `completed` — marking download completion with a
second `processing` write, never a `downloading` status.  On a stage error
(with the status store reachable) the last recorded status is `failed`. -/
theorem claim_C2 :
    (∀ (d : Payload) (env : Env) (oc : RunOracle) (wm : Bool) (p : String),
      2 ≤ d.video_urls.length → env.ffmpeg = some p → oc.failAt = none →
      statusValues (handleMerge d env oc wm).2 =
        "processing" :: "downloading" ::
          (List.replicate d.video_urls.length "downloading" ++
            "merging" :: (List.replicate d.video_urls.length "merging" ++
              ["merging", "completed"])) ∧
      "uploading" ∉ statusValues (handleMerge d env oc wm).2) ∧
    (∀ (d : Payload) (env : Env) (oc : RunOracle) (wm : Bool) (p : String),
      (truthy d.input_url && truthy d.caption_text) = true →
      env.ffmpeg = some p → oc.failAt = none →
      statusValues (handleCaption d env oc wm).2 =
        ["processing", "processing", "uploading", "completed"] ∧
      "downloading" ∉ statusValues (handleCaption d env oc wm).2) ∧
    (∀ (d : Payload) (env : Env) (oc : RunOracle) (wm : Bool) (p : String),
      (truthy d.input_url && truthy d.audio_url) = true →
      env.ffmpeg = some p → oc.failAt = none →
      statusValues (handleAudio d env oc wm).2 =
        ["processing", "processing", "uploading", "completed"]) ∧
    (∀ (d : Payload) (env : Env) (oc : RunOracle) (wm : Bool) (p : String),
      (truthy d.input_url && truthy d.watermark_url) = true →
      env.ffmpeg = some p → oc.failAt = none →
      statusValues (handleWatermark d env oc wm).2 =
        ["processing", "processing", "uploading", "completed"]) ∧
    (∀ (d : Payload) (env : Env) (oc : RunOracle) (wm : Bool) (p : String),
      (truthy d.input_url && truthy d.overlay_url) = true →
      env.ffmpeg = some p → oc.failAt = none →
      statusValues (handleOverlay d env oc wm).2 =
        ["processing", "processing", "uploading", "completed"]) ∧
    (∀ (d : Payload) (env : Env) (oc : RunOracle) (wm : Bool) (p : String) (k : Nat),
      env.ffmpeg = some p → oc.failAt = some k → oc.persistFail = none →
      (((truthy d.input_url && truthy d.caption_text) = true →
        k < (captionSteps (resolveJobId d env) (d.input_url.getD "") env).length →
        (statusValues (handleCaption d env oc wm).2).getLast? = some "failed") ∧
       (¬ d.video_urls.length < 2 →
        k < (mergeSteps (resolveJobId d env) d.video_urls env).length →
        (statusValues (handleMerge d env oc wm).2).getLast? = some "failed"))) := by
  refine ⟨?_, ?_, ?_, ?_, ?_, ?_⟩
  · intro d env oc wm p h2 hf hok
    have htr := handleMerge_trace_ok d env oc wm p (by omega) hf hok
    have hst : statusValues (handleMerge d env oc wm).2 =
        "processing" :: "downloading" ::
          (List.replicate d.video_urls.length "downloading" ++
            "merging" :: (List.replicate d.video_urls.length "merging" ++
              ["merging", "completed"])) := by
      rw [htr, statusValues_filterMap_event, mergeSteps_statuses]
    exact ⟨hst, by rw [hst]; exact uploading_not_mem_merge_statuses _⟩
  · intro d env oc wm p hv hf hok
    have hst : statusValues (handleCaption d env oc wm).2 =
        ["processing", "processing", "uploading", "completed"] := by
      rw [handleCaption_eq d env oc wm p hv hf,
        finishSimple_trace_ok _ _ _ _ _ _ hok, statusValues_filterMap_event,
        captionSteps_statuses]
    exact ⟨hst, by rw [hst]; decide⟩
  · intro d env oc wm p hv hf hok
    rw [handleAudio_eq d env oc wm p hv hf,
      finishSimple_trace_ok _ _ _ _ _ _ hok, statusValues_filterMap_event,
      audioSteps_statuses]
  · intro d env oc wm p hv hf hok
    rw [handleWatermark_eq d env oc wm p hv hf,
      finishSimple_trace_ok _ _ _ _ _ _ hok, statusValues_filterMap_event,
      watermarkSteps_statuses]
  · intro d env oc wm p hv hf hok
    rw [handleOverlay_eq d env oc wm p hv hf,
      finishSimple_trace_ok _ _ _ _ _ _ hok, statusValues_filterMap_event,
      overlaySteps_statuses]
  · intro d env oc wm p k hf hk hpf
    constructor
    · intro hv hlt
      rw [handleCaption_eq d env oc wm p hv hf,
        finishSimple_trace_fail _ _ _ _ _ _ k hk hlt hpf, statusValues_append]
      simp [statusValues]
    · intro hv hlt
      rw [handleMerge_trace_fail d env oc wm p k hv hf hk hlt hpf,
        statusValues_append]
      simp [statusValues]

/-- C2 witness: the merge and caption success sequences and the caption
failure terminal status at concrete runs. -/
theorem claim_C2_witness :
    statusValues (handleMerge { opField := some "merge", video_urls := ["a", "b"] }
        { ffmpeg := some "/usr/bin/ffmpeg" } {} false).2 =
      "processing" :: "downloading" ::
        (List.replicate 2 "downloading" ++
          "merging" :: (List.replicate 2 "merging" ++ ["merging", "completed"])) ∧
    statusValues (handleCaption
        { opField := some "caption", input_url := some "u", caption_text := some "t" }
        { ffmpeg := some "/usr/bin/ffmpeg" } {} false).2 =
      ["processing", "processing", "uploading", "completed"] ∧
    (statusValues (handleCaption
        { opField := some "caption", input_url := some "u", caption_text := some "t" }
        { ffmpeg := some "/usr/bin/ffmpeg" }
        { failAt := some 2, failMsg := "dl failed" } false).2).getLast? =
      some "failed" :=
  ⟨(claim_C2.1 { opField := some "merge", video_urls := ["a", "b"] }
      { ffmpeg := some "/usr/bin/ffmpeg" } {} false "/usr/bin/ffmpeg"
      (by decide) rfl rfl).1,
   (claim_C2.2.1
      { opField := some "caption", input_url := some "u", caption_text := some "t" }
      { ffmpeg := some "/usr/bin/ffmpeg" } {} false "/usr/bin/ffmpeg"
      (by decide) rfl rfl).1,
   ((claim_C2.2.2.2.2.2
      { opField := some "caption", input_url := some "u", caption_text := some "t" }
      { ffmpeg := some "/usr/bin/ffmpeg" }
      { failAt := some 2, failMsg := "dl failed" } false "/usr/bin/ffmpeg" 2
      rfl rfl rfl).1 (by decide) (by decide))⟩

/-- C3 (confirmed): within any single handler run — any payload, any
environment, any success/failure point, worker or synchronous mode — the
recorded progress values (clamped and rounded exactly as the status store
records them) form a non-decreasing sequence; a successful merge run records
exactly the clamped-rounded images of
`5, 10, 10+30*(i+1)/N (i=0..N-1), 45, 45+50*(i+1)/N (i=0..N-1), 98, 100`;
and a failing run's terminal `failed` write records 100, which is therefore
greater than or equal to every prior recorded value. -/
theorem claim_C3 :
    (∀ (d : Payload) (env : Env) (oc : RunOracle) (wm : Bool),
      List.Pairwise (· ≤ ·) (progressValues (handleMerge d env oc wm).2)) ∧
    (∀ (d : Payload) (env : Env) (oc : RunOracle) (wm : Bool),
      List.Pairwise (· ≤ ·) (progressValues (handleCaption d env oc wm).2)) ∧
    (∀ (d : Payload) (env : Env) (oc : RunOracle) (wm : Bool),
      List.Pairwise (· ≤ ·) (progressValues (handleAudio d env oc wm).2)) ∧
    (∀ (d : Payload) (env : Env) (oc : RunOracle) (wm : Bool),
      List.Pairwise (· ≤ ·) (progressValues (handleWatermark d env oc wm).2)) ∧
    (∀ (d : Payload) (env : Env) (oc : RunOracle) (wm : Bool),
      List.Pairwise (· ≤ ·) (progressValues (handleOverlay d env oc wm).2)) ∧
    (∀ (d : Payload) (env : Env) (oc : RunOracle) (wm : Bool) (p : String),
      2 ≤ d.video_urls.length → env.ffmpeg = some p → oc.failAt = none →
      progressValues (handleMerge d env oc wm).2 =
        (5 :: 10 :: (dlProgList d.video_urls.length (d.video_urls.length : ℚ) 0 ++
          45 :: (normProgList d.video_urls.length (d.video_urls.length : ℚ) 0 ++
            [98, 100]))).map recProg) ∧
    (∀ (d : Payload) (env : Env) (oc : RunOracle) (wm : Bool) (p : String) (k : Nat),
      env.ffmpeg = some p → oc.failAt = some k → oc.persistFail = none →
      (((truthy d.input_url && truthy d.caption_text) = true →
        k < (captionSteps (resolveJobId d env) (d.input_url.getD "") env).length →
        (progressValues (handleCaption d env oc wm).2).getLast? = some 100) ∧
       (¬ d.video_urls.length < 2 →
        k < (mergeSteps (resolveJobId d env) d.video_urls env).length →
        (progressValues (handleMerge d env oc wm).2).getLast? = some 100))) := by
  refine ⟨handleMerge_progress_pairwise, handleCaption_progress_pairwise,
    handleAudio_progress_pairwise, handleWatermark_progress_pairwise,
    handleOverlay_progress_pairwise, ?_, ?_⟩
  · intro d env oc wm p h2 hf hok
    rw [handleMerge_trace_ok d env oc wm p (by omega) hf hok,
      progressValues_filterMap_event, merge_filterMap_stepProg]
  · intro d env oc wm p k hf hk hpf
    constructor
    · intro hv hlt
      rw [handleCaption_eq d env oc wm p hv hf,
        finishSimple_trace_fail _ _ _ _ _ _ k hk hlt hpf, progressValues_append]
      simp [progressValues, recProg_100]
    · intro hv hlt
      rw [handleMerge_trace_fail d env oc wm p k hv hf hk hlt hpf,
        progressValues_append]
      simp [progressValues, recProg_100]

/-- C3 witness: monotonicity, the explicit merge value sequence, and the
terminal failure value at concrete runs. -/
theorem claim_C3_witness :
    List.Pairwise (· ≤ ·) (progressValues
      (handleMerge { opField := some "merge", video_urls := ["a", "b", "c"] }
        { ffmpeg := some "/usr/bin/ffmpeg" } { failAt := some 5 } true).2) ∧
    progressValues (handleMerge { opField := some "merge", video_urls := ["a", "b"] }
        { ffmpeg := some "/usr/bin/ffmpeg" } {} false).2 =
      (5 :: 10 :: (dlProgList 2 (2 : ℚ) 0 ++
        45 :: (normProgList 2 (2 : ℚ) 0 ++ [98, 100]))).map recProg ∧
    (progressValues (handleMerge { opField := some "merge", video_urls := ["a", "b"] }
        { ffmpeg := some "/usr/bin/ffmpeg" }
        { failAt := some 4, failMsg := "dl failed" } true).2).getLast? = some 100 :=
  ⟨claim_C3.1 { opField := some "merge", video_urls := ["a", "b", "c"] }
      { ffmpeg := some "/usr/bin/ffmpeg" } { failAt := some 5 } true,
   claim_C3.2.2.2.2.2.1 { opField := some "merge", video_urls := ["a", "b"] }
      { ffmpeg := some "/usr/bin/ffmpeg" } {} false "/usr/bin/ffmpeg"
      (by decide) rfl rfl,
   (claim_C3.2.2.2.2.2.2 { opField := some "merge", video_urls := ["a", "b"] }
      { ffmpeg := some "/usr/bin/ffmpeg" }
      { failAt := some 4, failMsg := "dl failed" } true "/usr/bin/ffmpeg" 4
      rfl rfl rfl).2 (by decide) (by decide)⟩

end VideoSvc

